import Mathlib

/-!
Verification of the dev-metric repository (src/dev-metric.mjs).

Shallow embedding conventions:
- timestamps are epoch milliseconds as Int (the JavaScript Date internal value);
- JavaScript numbers are modelled as exact rationals extended with the
  non-finite values NaN / Infinity / -Infinity in the inductive type JsNum
  (every value the verified claims touch is exactly representable, so the
  rational model agrees with IEEE doubles on them);
- the ambient clock read by processStats (the call to the Date constructor
  with no argument) is passed as an explicit parameter, and the process is
  assumed to run with a UTC local timezone;
- fallible page requests are modelled by the PageResult sum type, and the
  attempt outcomes seen by the retrier by AttemptResult.
-/

namespace DevMetric

/-! ## Calendar arithmetic (UTC), as performed by the JavaScript Date object -/

/-- Number of whole UTC days since the epoch that contain the instant t
(milliseconds); this is what setUTCHours(0,0,0,0) truncates to. -/
def msToDays (t : Int) : Int := Int.fdiv t 86400000

/-- Weekday of an epoch day number, Sunday = 0 through Saturday = 6; this is
getUTCDay. Day 0 (1970-01-01) was a Thursday, hence the +4. -/
def weekdayOfDays (days : Int) : Int := (days + 4) % 7

/-- Epoch day number of the most recent Sunday at or before the given day;
this is setUTCDate(getUTCDate() - getUTCDay()). -/
def weekStartDays (days : Int) : Int := days - weekdayOfDays days

/-- Civil (proleptic Gregorian) date of an epoch day number, as
(year, month, day); the standard era-based conversion used by every
date library, matching toISOString. -/
def civilFromDays (z : Int) : Int × Int × Int :=
  let z1 := z + 719468
  let era := Int.fdiv z1 146097
  let doe := z1 - era * 146097
  let yoe := Int.fdiv (doe - Int.fdiv doe 1460 + Int.fdiv doe 36524 - Int.fdiv doe 146096) 365
  let y := yoe + era * 400
  let doy := doe - (365 * yoe + Int.fdiv yoe 4 - Int.fdiv yoe 100)
  let mp := Int.fdiv (5 * doy + 2) 153
  let d := doy - Int.fdiv (153 * mp + 2) 5 + 1
  let m := mp + (if mp < 10 then 3 else -9)
  (if m ≤ 2 then y + 1 else y, m, d)

/-- Epoch day number of a civil date; linear in d, so a day-of-month larger
than the month length normalizes by carrying into later months, exactly as
the JavaScript MakeDay operation does. -/
def daysFromCivil (y m d : Int) : Int :=
  let y1 := if m ≤ 2 then y - 1 else y
  let era := Int.fdiv y1 400
  let yoe := y1 - era * 400
  let doy := Int.fdiv (153 * (m + (if 2 < m then -3 else 9)) + 2) 5 + d - 1
  let doe := yoe * 365 + Int.fdiv yoe 4 - Int.fdiv yoe 100 + doy
  era * 146097 + doe - 719468

/-- Two-digit zero padding for month / day fields. -/
def pad2Int (n : Int) : String :=
  if n < 10 then "0" ++ toString n else toString n

/-- Four-digit zero padding for the year field (all dates in play have
four-digit years, where toISOString uses exactly this format). -/
def pad4Int (y : Int) : String :=
  if y < 10 then "000" ++ toString y
  else if y < 100 then "00" ++ toString y
  else if y < 1000 then "0" ++ toString y
  else toString y

/-- ISO-8601 date string (YYYY-MM-DD) of an epoch day number; this is
toISOString().split("T")[0]. -/
def isoDateOfDays (z : Int) : String :=
  let c := civilFromDays z
  pad4Int c.1 ++ "-" ++ pad2Int c.2.1 ++ "-" ++ pad2Int c.2.2

/-- Week key assigned by processStats to a record with governing timestamp t
(epoch ms): the ISO date of the Sunday starting the UTC week of t
(dev-metric.mjs lines 168-171). -/
def weekKeyOfMs (t : Int) : String :=
  isoDateOfDays (weekStartDays (msToDays t))

/-- Instant one calendar month before the given instant: the result of
new Date() followed by setMonth(getMonth() - 1) under a UTC local timezone
(dev-metric.mjs lines 234-235). Day-of-month and time-of-day are kept; an
out-of-range day carries forward per MakeDay normalization. -/
def lastMonthOf (now : Int) : Int :=
  let days := msToDays now
  let tod := now - days * 86400000
  let c := civilFromDays days
  let ym : Int × Int := if c.2.1 = 1 then (c.1 - 1, 12) else (c.1, c.2.1 - 1)
  daysFromCivil ym.1 ym.2 c.2.2 * 86400000 + tod

/-! ## JavaScript number semantics needed by the composer -/

/-- Exact rational value as an unnormalized fraction with positive
denominator; every operation below preserves the positive denominator and
only exact values flow through the composer, so this agrees with the IEEE
doubles of the source on every value the claims touch. Kept unnormalized so
that the kernel can evaluate it. -/
structure Frac : Type where
  num : Int
  den : Int
deriving DecidableEq

/-- Embed an integer. -/
def Frac.ofInt (n : Int) : Frac := { num := n, den := 1 }

/-- Exact addition. -/
def Frac.add (a b : Frac) : Frac :=
  { num := a.num * b.den + b.num * a.den, den := a.den * b.den }

/-- Exact multiplication. -/
def Frac.mul (a b : Frac) : Frac :=
  { num := a.num * b.num, den := a.den * b.den }

/-- Exact division by a nonzero fraction, keeping the denominator
positive. -/
def Frac.div (a b : Frac) : Frac :=
  if b.num < 0 then { num := -(a.num * b.den), den := a.den * (-b.num) }
  else { num := a.num * b.den, den := a.den * b.num }

/-- JavaScript number modelled as an exact rational or a non-finite value. -/
inductive JsNum : Type where
  | num (q : Frac)
  | nan
  | inf
  | ninf
deriving DecidableEq

/-- JavaScript division, including the zero-denominator cases 0/0 = NaN and
x/0 = plus or minus Infinity. -/
def jsDiv : JsNum → JsNum → JsNum
  | .num a, .num b =>
      if b.num = 0 then (if a.num = 0 then .nan else if 0 < a.num then .inf else .ninf)
      else .num (Frac.div a b)
  | .nan, _ => .nan
  | _, .nan => .nan
  | .inf, .inf => .nan
  | .inf, .ninf => .nan
  | .ninf, .inf => .nan
  | .ninf, .ninf => .nan
  | .inf, .num b => if 0 ≤ b.num then .inf else .ninf
  | .ninf, .num b => if 0 ≤ b.num then .ninf else .inf
  | .num _, .inf => .num (Frac.ofInt 0)
  | .num _, .ninf => .num (Frac.ofInt 0)

/-- JavaScript multiplication on the JsNum model. -/
def jsMul : JsNum → JsNum → JsNum
  | .num a, .num b => .num (Frac.mul a b)
  | .nan, _ => .nan
  | _, .nan => .nan
  | .inf, .inf => .inf
  | .inf, .ninf => .ninf
  | .ninf, .inf => .ninf
  | .ninf, .ninf => .inf
  | .inf, .num b => if b.num = 0 then .nan else if 0 < b.num then .inf else .ninf
  | .num a, .inf => if a.num = 0 then .nan else if 0 < a.num then .inf else .ninf
  | .ninf, .num b => if b.num = 0 then .nan else if 0 < b.num then .ninf else .inf
  | .num a, .ninf => if a.num = 0 then .nan else if 0 < a.num then .ninf else .inf

/-- Two-digit zero padding on Nat. -/
def pad2Nat (n : Nat) : String :=
  if n < 10 then "0" ++ toString n else toString n

/-- toFixed(2) on a nonnegative exact rational: the integer n minimizing the
distance of n/100 to the value, larger n on ties, then rendered with two
fraction digits. -/
def ratToFixed2Nonneg (q : Frac) : String :=
  let n := (Int.fdiv (q.num * 200 + q.den) (2 * q.den)).toNat
  toString (n / 100) ++ "." ++ pad2Nat (n % 100)

/-- toFixed(2) on an exact rational, negative values handled by the sign
prefix rule of the ECMAScript specification. -/
def ratToFixed2 (q : Frac) : String :=
  if q.num < 0 then "-" ++ ratToFixed2Nonneg { num := -q.num, den := q.den }
  else ratToFixed2Nonneg q

/-- toFixed(2) on the JsNum model; non-finite values render as their names,
which is how the unguarded division by zero leaks into the report. -/
def jsToFixed2 : JsNum → String
  | .num q => ratToFixed2 q
  | .nan => "NaN"
  | .inf => "Infinity"
  | .ninf => "-Infinity"

/-! ## Input record types (section 3 of the spec, boundary of the fetchers) -/

/-- Label object carried by a pull request. -/
structure Label where
  name : String
deriving DecidableEq

/-- Pull request record: creation instant, optional merge instant, labels. -/
structure PullRequest where
  createdAt : Int
  mergedAt : Option Int
  labels : List Label
deriving DecidableEq

/-- Deployment record: creation instant. -/
structure Deployment where
  createdAt : Int
deriving DecidableEq

/-- Commit-activity bucket: week start in epoch seconds and commit total. -/
structure CommitWeek where
  week : Int
  total : Nat
deriving DecidableEq

/-- Commit-activity input as it reaches processStats: either a list or some
non-array value (the safety check on lines 154-157 replaces the latter with
an empty list). -/
inductive CommitActivity : Type where
  | arr (weeks : List CommitWeek)
  | other
deriving DecidableEq

/-- Test for the bug label: pr.labels.some(label =&gt; label.name === "bug"). -/
def isBugPR (pr : PullRequest) : Bool :=
  pr.labels.any (fun l => l.name == "bug")

/-! ## Weekly aggregation (dev-metric.mjs lines 166-213) -/

/-- Per-week accumulator built by the forEach loop. -/
structure WeekStats where
  prCount : Nat
  mergedCount : Nat
  totalMergeTime : Frac
  bugPRCount : Nat
  mergedBugPRCount : Nat
deriving DecidableEq

/-- Zero-initialized bucket (lines 174-180). -/
def zeroWeekStats : WeekStats :=
  { prCount := 0, mergedCount := 0, totalMergeTime := Frac.ofInt 0,
    bugPRCount := 0, mergedBugPRCount := 0 }

/-- Merge time of a merged PR in hours (line 195). -/
def mergeTimeHours (createdAt mergedAt : Int) : Frac :=
  Frac.div (Frac.ofInt (mergedAt - createdAt)) (Frac.ofInt (1000 * 60 * 60))

/-- Counter updates applied to the bucket of one PR (lines 183-197). -/
def applyPR (s : WeekStats) (pr : PullRequest) : WeekStats :=
  let s1 := { s with prCount := s.prCount + 1 }
  let s2 :=
    if isBugPR pr then
      let sb := { s1 with bugPRCount := s1.bugPRCount + 1 }
      if pr.mergedAt.isSome then
        { sb with mergedBugPRCount := sb.mergedBugPRCount + 1 }
      else sb
    else s1
  match pr.mergedAt with
  | some m =>
      { s2 with mergedCount := s2.mergedCount + 1,
                totalMergeTime := Frac.add s2.totalMergeTime (mergeTimeHours pr.createdAt m) }
  | none => s2

/-- Association-list lookup for the week map (object property access). -/
def lookupW : List (String × WeekStats) → String → Option WeekStats
  | [], _ => none
  | (k1, v) :: rest, k => if k1 = k then some v else lookupW rest k

/-- Bucket observed at a key, zero when absent. -/
def bucketGet (m : List (String × WeekStats)) (k : String) : WeekStats :=
  (lookupW m k).getD zeroWeekStats

/-- Insert-or-update on the week map: a missing key is first bound to the
zero bucket, then mutated, preserving insertion order of keys. -/
def upsertW : List (String × WeekStats) → String → (WeekStats → WeekStats) → List (String × WeekStats)
  | [], k, f => [(k, f zeroWeekStats)]
  | (k1, v) :: rest, k, f =>
      if k1 = k then (k1, f v) :: rest else (k1, v) :: upsertW rest k f

/-- Week map built by the forEach loop over the pull requests
(lines 166-198): each PR updates the bucket keyed by the week of its
creation instant. -/
def weeklyPRStats (prs : List PullRequest) : List (String × WeekStats) :=
  prs.foldl (fun m pr => upsertW m (weekKeyOfMs pr.createdAt) (fun s => applyPR s pr)) []

/-- JavaScript value that is either a string or the number literal 0; the
ternary on lines 206-209 produces a string for weeks with merges and the
number 0 otherwise. -/
inductive StrOrZero : Type where
  | str (s : String)
  | zero
deriving DecidableEq

/-- One row of the weekly PR series (lines 201-212). -/
structure WeekMetric where
  week : String
  prCount : Nat
  mergedCount : Nat
  averageMergeTime : StrOrZero
  bugPRCount : Nat
  mergedBugPRCount : Nat
deriving DecidableEq

/-- Projection of one map entry to a series row, with the per-week average
merge time (lines 202-212). -/
def toWeekMetric (e : String × WeekStats) : WeekMetric :=
  { week := e.1
    prCount := e.2.prCount
    mergedCount := e.2.mergedCount
    averageMergeTime :=
      if 0 < e.2.mergedCount then
        .str (ratToFixed2 (Frac.div e.2.totalMergeTime (Frac.ofInt e.2.mergedCount)))
      else .zero
    bugPRCount := e.2.bugPRCount
    mergedBugPRCount := e.2.mergedBugPRCount }

/-- Insertion step of the ascending sort on week keys. -/
def insertByWeek (x : WeekMetric) : List WeekMetric → List WeekMetric
  | [] => [x]
  | y :: ys =>
      if (compare x.week y.week).isLE then x :: y :: ys else y :: insertByWeek x ys

/-- Ascending stable sort on week keys (line 213). -/
def sortByWeek (l : List WeekMetric) : List WeekMetric :=
  l.foldr insertByWeek []

/-- Weekly PR series exposed by the composer (lines 200-213). -/
def weeklyPRMetrics (prs : List PullRequest) : List WeekMetric :=
  sortByWeek ((weeklyPRStats prs).map toWeekMetric)

/-! ## Composed statistics object (dev-metric.mjs lines 152-278) -/

/-- Row of the weekly commit trend (lines 160-163). -/
structure WeekCommit where
  week : String
  commits : Nat
deriving DecidableEq

/-- Mapping of one commit-activity bucket to a trend row (lines 160-163):
the week field is the ISO date of the epoch-second week start. -/
def toWeekCommit (w : CommitWeek) : WeekCommit :=
  { week := isoDateOfDays (msToDays (w.week * 1000)), commits := w.total }

/-- Commit section of the report. -/
structure CommitStats where
  totalCommitsLastYear : Nat
  averageCommitsPerWeek : String
  weeklyCommitTrend : List WeekCommit
deriving DecidableEq

/-- Bug-PR subsection of the report (lines 261-265). -/
structure BugPRStats where
  total : Nat
  merged : Nat
  weeklyMetrics : List WeekMetric
deriving DecidableEq

/-- PR section of the report. -/
structure PRStats where
  totalPRs : Nat
  mergedPRs : Nat
  averagePRsPerWeek : Frac
  prMergeRate : String
  recentPRCount : Nat
  recentPRsPerWeek : String
  weeklyMetrics : List WeekMetric
  bugPRs : BugPRStats
deriving DecidableEq

/-- Deployment section of the report. -/
structure DeploymentStats where
  totalDeployments : Nat
  averageDeploymentsPerWeek : Frac
  recentDeploymentCount : Nat
  recentDeploymentsPerWeek : String
deriving DecidableEq

/-- Composed statistics object (lines 244-272). -/
structure StatsReport where
  commitStats : CommitStats
  prStats : PRStats
  deploymentStats : DeploymentStats
deriving DecidableEq

/-- Statistics composer processStats (lines 152-278). The now parameter is
the ambient clock instant read by the Date constructor on line 234; the two
date arguments of the source, used only to name the export files, are
dropped together with the export side effect. -/
def processStats (commitActivityIn : CommitActivity) (pullRequests : List PullRequest)
    (deployments : List Deployment) (now : Int) : StatsReport :=
  let commitActivity := match commitActivityIn with
    | .arr ws => ws
    | .other => []
  let weeklyCommits : List WeekCommit :=
    commitActivity.map (fun w =>
      { week := isoDateOfDays (msToDays (w.week * 1000)), commits := w.total })
  let wMetrics := weeklyPRMetrics pullRequests
  let totalPRs := pullRequests.length
  let mergedPRs := (pullRequests.filter (fun pr => pr.mergedAt.isSome)).length
  let lastMonth := lastMonthOf now
  let recentPRs := pullRequests.filter (fun pr => lastMonth < pr.createdAt)
  let recentDeployments := deployments.filter (fun dep => lastMonth < dep.createdAt)
  let totalCommits := weeklyCommits.foldl (fun sum w => sum + w.commits) 0
  { commitStats :=
      { totalCommitsLastYear := totalCommits
        averageCommitsPerWeek :=
          jsToFixed2 (jsDiv (.num (Frac.ofInt totalCommits)) (.num (Frac.ofInt weeklyCommits.length)))
        weeklyCommitTrend := weeklyCommits }
    prStats :=
      { totalPRs := totalPRs
        mergedPRs := mergedPRs
        averagePRsPerWeek := Frac.div (Frac.ofInt totalPRs) (Frac.ofInt 52)
        prMergeRate :=
          jsToFixed2 (jsMul (jsDiv (.num (Frac.ofInt mergedPRs)) (.num (Frac.ofInt totalPRs)))
            (.num (Frac.ofInt 100)))
        recentPRCount := recentPRs.length
        recentPRsPerWeek :=
          jsToFixed2 (jsDiv (.num (Frac.ofInt recentPRs.length)) (.num (Frac.ofInt 4)))
        weeklyMetrics := wMetrics
        bugPRs :=
          { total := (pullRequests.filter (fun pr => isBugPR pr)).length
            merged := (pullRequests.filter (fun pr => pr.mergedAt.isSome && isBugPR pr)).length
            weeklyMetrics := wMetrics } }
    deploymentStats :=
      { totalDeployments := deployments.length
        averageDeploymentsPerWeek := Frac.div (Frac.ofInt deployments.length) (Frac.ofInt 52)
        recentDeploymentCount := recentDeployments.length
        recentDeploymentsPerWeek :=
          jsToFixed2 (jsDiv (.num (Frac.ofInt recentDeployments.length)) (.num (Frac.ofInt 4))) } }

/-! ## Paginated fetcher getAllPaginatedData (dev-metric.mjs lines 91-126) -/

/-- Outcome of one page request: records plus the has-next signal from the
Link header, or a thrown error. -/
inductive PageResult (α : Type) : Type where
  | ok (data : List α) (hasNext : Bool)
  | err
deriving DecidableEq

/-- Optional per-record filter application (line 106). -/
def applyFilter (f : Option (α → Bool)) (data : List α) : List α :=
  match f with
  | some fn => data.filter fn
  | none => data

/-- Body of the while loop, consuming the page sequence in order with the
accumulated records; the source delivering no further page is an empty page
(the remote endpoint answers an empty array past the last page). -/
def fetchGo (f : Option (α → Bool)) : List (PageResult α) → List α → List α
  | [], acc => acc
  | .err :: _, acc => acc
  | .ok data hasNext :: rest, acc =>
      if data.isEmpty then acc
      else
        let filtered := applyFilter f data
        let acc1 := acc ++ filtered
        if filtered.isEmpty && !hasNext then acc1
        else if hasNext then fetchGo f rest acc1
        else acc1

/-- Paginated fetcher (lines 91-126): pages are requested as 1, 2, 3, ...,
which is exactly consuming the page sequence in order. -/
def getAllPaginatedData (pages : List (PageResult α)) (f : Option (α → Bool)) : List α :=
  fetchGo f pages []

/-- Modelled from the spec: the section 4.1 description in its own words,
the concatenation in page order of each filtered page, stopping on an empty
raw page or on the no-further-pages signal. Used only as the comparison
point of the refinement claim. -/
def fetchAllSpec (f : Option (α → Bool)) : List (List α × Bool) → List α
  | [] => []
  | (data, hasNext) :: rest =>
      if data.isEmpty then []
      else applyFilter f data ++ (if hasNext then fetchAllSpec f rest else [])

/-! ## Readiness retrier retryRequest (dev-metric.mjs lines 128-150) -/

/-- Value produced by a successful attempt: an array, or any non-array
value (the not-ready placeholder body). -/
inductive JsResponse (α : Type) : Type where
  | arr (xs : List α)
  | notArr
deriving DecidableEq

/-- Outcome of one attempt: a returned value or a thrown error with an
HTTP status. -/
inductive AttemptResult (α : Type) : Type where
  | ok (r : JsResponse α)
  | err (status : Nat)
deriving DecidableEq

/-- Final result of the retrier: the returned array, or a propagated error
status. -/
inductive RetryResult (α : Type) : Type where
  | ok (xs : List α)
  | err (status : Nat)
deriving DecidableEq

/-- Observable trace of one retrier run: final result, number of attempts
performed, and the backoff sleeps in milliseconds in order. -/
structure RetryTrace (α : Type) : Type where
  result : RetryResult α
  attempts : Nat
  sleeps : List Nat
deriving DecidableEq

/-- Attempts after which the loop continues: a non-array success or a
thrown 202. -/
def isRetryable : AttemptResult α → Bool
  | .ok (.arr _) => false
  | .ok .notArr => true
  | .err s => decide (s = 202)

/-- Loop body of retryRequest: i counts attempts already made, fuel the
attempts remaining out of maxRetries. -/
def retryGo (f : Nat → AttemptResult α) : Nat → Nat → List Nat → RetryTrace α
  | 0, i, sleeps => { result := .ok [], attempts := i, sleeps := sleeps }
  | fuel + 1, i, sleeps =>
      match f i with
      | .ok (.arr xs) => { result := .ok xs, attempts := i + 1, sleeps := sleeps }
      | .ok .notArr => retryGo f fuel (i + 1) (sleeps ++ [2000 * (i + 1)])
      | .err s =>
          if s = 202 then retryGo f fuel (i + 1) (sleeps ++ [2000 * (i + 1)])
          else { result := .err s, attempts := i + 1, sleeps := sleeps }

/-- Readiness retrier retryRequest (lines 128-150): attempt i is the value
f i; maxRetries bounds the attempts, exhaustion returns the empty array. -/
def retryRequest (f : Nat → AttemptResult α) (maxRetries : Nat) : RetryTrace α :=
  retryGo f maxRetries 0 []

/-! ## Concrete inputs used by the claims -/

/-- Ten pull requests of which the first four are merged. -/
def prsTen : List PullRequest :=
  (List.range 10).map (fun i =>
    { createdAt := 1718202600000 + 3600000 * (i : Int)
      mergedAt := if i < 4 then some (1718202600000 + 3600000 * (i : Int) + 7200000) else none
      labels := [] })

/-- Compute function that is not ready twice and then yields the array
1, 2, 3. -/
def notReadyTwice : Nat → AttemptResult Nat :=
  fun i => if i < 2 then .ok .notArr else .ok (.arr [1, 2, 3])

/-- Compute function that never becomes ready. -/
def neverReady : Nat → AttemptResult Nat :=
  fun _ => .ok .notArr

/-- Compute function whose first attempt is not ready and whose second
attempt throws a non-202 error. -/
def failsWith500 : Nat → AttemptResult Nat :=
  fun i => if i = 0 then .ok .notArr else .err 500

/-! ## Lemmas about the week map -/

theorem lookupW_upsertW_same (m : List (String × WeekStats)) (k : String)
    (f : WeekStats → WeekStats) :
    lookupW (upsertW m k f) k = some (f (bucketGet m k)) := by
  induction m with
  | nil => simp [upsertW, lookupW, bucketGet]
  | cons hd tl ih =>
    obtain ⟨k1, v⟩ := hd
    by_cases h : k1 = k
    · subst h; simp [upsertW, lookupW, bucketGet]
    · simp [upsertW, lookupW, h, bucketGet, ih]

theorem lookupW_upsertW_ne (m : List (String × WeekStats)) (k k1 : String)
    (f : WeekStats → WeekStats) (h : k1 ≠ k) :
    lookupW (upsertW m k f) k1 = lookupW m k1 := by
  induction m with
  | nil => simp [upsertW, lookupW, Ne.symm h]
  | cons hd tl ih =>
    obtain ⟨k2, v⟩ := hd
    by_cases h2 : k2 = k
    · subst h2; simp [upsertW, lookupW, Ne.symm h]
    · simp [upsertW, lookupW, h2, ih]

theorem bucketGet_weeklyPRStats_aux (k : String) :
    ∀ (prs : List PullRequest) (m : List (String × WeekStats)),
      bucketGet (prs.foldl
          (fun m2 pr => upsertW m2 (weekKeyOfMs pr.createdAt) (fun s => applyPR s pr)) m) k
        = (prs.filter (fun pr => weekKeyOfMs pr.createdAt == k)).foldl
            (fun s pr => applyPR s pr) (bucketGet m k) := by
  intro prs
  induction prs with
  | nil => intro m; rfl
  | cons pr tl ih =>
    intro m
    simp only [List.foldl_cons, List.filter_cons]
    by_cases h : weekKeyOfMs pr.createdAt = k
    · have hb : bucketGet (upsertW m k (fun s => applyPR s pr)) k
          = applyPR (bucketGet m k) pr := by
        rw [bucketGet, lookupW_upsertW_same]; rfl
      simp [h, ih, hb]
    · have hb : bucketGet (upsertW m (weekKeyOfMs pr.createdAt) (fun s => applyPR s pr)) k
          = bucketGet m k := by
        rw [bucketGet, lookupW_upsertW_ne _ _ _ _ (fun e => h e.symm)]; rfl
      simp [h, ih, hb]

/-! ## Lemmas about the commit totals -/

theorem foldl_commits_inst :
    ∀ (ws : List CommitWeek) (s0 : Nat),
      ((ws.map toWeekCommit).foldl (fun sum w => sum + w.commits) s0)
        = s0 + (ws.map CommitWeek.total).sum := by
  intro ws
  induction ws with
  | nil => intro s0; simp
  | cons w tl ih => intro s0; simp [toWeekCommit, ih, Nat.add_assoc]

/-! ## Lemmas about filtered lengths -/

theorem filter_length_mono (p q : α → Bool) (h : ∀ a, p a = true → q a = true) :
    ∀ l : List α, (l.filter p).length ≤ (l.filter q).length := by
  intro l
  induction l with
  | nil => simp
  | cons a tl ih =>
    by_cases hp : p a = true
    · simp [List.filter_cons, hp, h a hp, Nat.succ_le_succ ih]
    · have hp2 : p a = false := by simpa using hp
      by_cases hq : q a = true
      · simp only [List.filter_cons, hp2, hq, if_true, if_false, Bool.false_eq_true]
        simp only [List.length_cons]
        exact Nat.le_succ_of_le ih
      · have hq2 : q a = false := by simpa using hq
        simp [List.filter_cons, hp2, hq2, ih]

/-! ## Projection lemmas for the composed report -/

theorem processStats_totalPRs (ca : CommitActivity) (prs : List PullRequest)
    (deps : List Deployment) (now : Int) :
    (processStats ca prs deps now).prStats.totalPRs = prs.length := rfl

theorem processStats_mergedPRs (ca : CommitActivity) (prs : List PullRequest)
    (deps : List Deployment) (now : Int) :
    (processStats ca prs deps now).prStats.mergedPRs
      = (prs.filter (fun pr => pr.mergedAt.isSome)).length := rfl

theorem processStats_bugTotal (ca : CommitActivity) (prs : List PullRequest)
    (deps : List Deployment) (now : Int) :
    (processStats ca prs deps now).prStats.bugPRs.total
      = (prs.filter (fun pr => isBugPR pr)).length := rfl

theorem processStats_bugMerged (ca : CommitActivity) (prs : List PullRequest)
    (deps : List Deployment) (now : Int) :
    (processStats ca prs deps now).prStats.bugPRs.merged
      = (prs.filter (fun pr => pr.mergedAt.isSome && isBugPR pr)).length := rfl

theorem processStats_recentPRCount (ca : CommitActivity) (prs : List PullRequest)
    (deps : List Deployment) (now : Int) :
    (processStats ca prs deps now).prStats.recentPRCount
      = (prs.filter (fun pr => lastMonthOf now < pr.createdAt)).length := rfl

theorem processStats_totalDeployments (ca : CommitActivity) (prs : List PullRequest)
    (deps : List Deployment) (now : Int) :
    (processStats ca prs deps now).deploymentStats.totalDeployments = deps.length := rfl

theorem processStats_recentDeployments (ca : CommitActivity) (prs : List PullRequest)
    (deps : List Deployment) (now : Int) :
    (processStats ca prs deps now).deploymentStats.recentDeploymentCount
      = (deps.filter (fun dep => lastMonthOf now < dep.createdAt)).length := rfl

/-! ## Lemmas about the paginated fetcher -/

theorem fetchGo_append (f : Option (α → Bool)) :
    ∀ (pages : List (PageResult α)) (acc : List α),
      fetchGo f pages acc = acc ++ fetchGo f pages [] := by
  intro pages
  induction pages with
  | nil => intro acc; simp [fetchGo]
  | cons p tl ih =>
    intro acc
    cases p with
    | err => simp [fetchGo]
    | ok data hasNext =>
      by_cases hd : data.isEmpty
      · simp [fetchGo, hd]
      · cases hasNext with
        | false =>
          by_cases hfe : (applyFilter f data).isEmpty <;> simp [fetchGo, hd, hfe]
        | true =>
          simp [fetchGo, hd, ih (acc ++ applyFilter f data), ih (applyFilter f data),
            List.append_assoc]

theorem fetch_eq_spec (f : Option (α → Bool)) :
    ∀ (pages : List (List α × Bool)),
      getAllPaginatedData (pages.map (fun p => PageResult.ok p.1 p.2)) f = fetchAllSpec f pages := by
  intro pages
  induction pages with
  | nil => rfl
  | cons p tl ih =>
    obtain ⟨data, hasNext⟩ := p
    by_cases hd : data.isEmpty
    · simp [getAllPaginatedData, fetchGo, fetchAllSpec, hd]
    · cases hasNext with
      | false =>
        by_cases hfe : (applyFilter f data).isEmpty <;>
          simp [getAllPaginatedData, fetchGo, fetchAllSpec, hd, hfe]
      | true =>
        have h2 := fetchGo_append f (tl.map (fun p => PageResult.ok p.1 p.2)) (applyFilter f data)
        simp only [getAllPaginatedData] at ih
        simp [getAllPaginatedData, fetchGo, fetchAllSpec, hd, h2, ih]

theorem fetchGo_err (f : Option (α → Bool)) :
    ∀ (pre : List (List α × Bool)) (rest : List (PageResult α)) (acc : List α),
      (∀ p ∈ pre, p.1 ≠ [] ∧ p.2 = true) →
        fetchGo f (pre.map (fun p => PageResult.ok p.1 p.2) ++ PageResult.err :: rest) acc
          = acc ++ (pre.map (fun p => applyFilter f p.1)).flatten := by
  intro pre
  induction pre with
  | nil => intro rest acc h; simp [fetchGo]
  | cons p tl ih =>
    intro rest acc h
    obtain ⟨data, hasNext⟩ := p
    obtain ⟨hne, hnx⟩ := h (data, hasNext) (List.mem_cons_self _ _)
    simp only at hne hnx
    subst hnx
    have hd : data.isEmpty = false := by
      cases data with
      | nil => exact absurd rfl hne
      | cons a l => rfl
    simp only [List.map_cons, List.cons_append]
    rw [show fetchGo f (PageResult.ok data true
          :: (tl.map (fun p => PageResult.ok p.1 p.2) ++ PageResult.err :: rest)) acc
        = fetchGo f (tl.map (fun p => PageResult.ok p.1 p.2) ++ PageResult.err :: rest)
            (acc ++ applyFilter f data) by simp [fetchGo, hd]]
    rw [ih rest (acc ++ applyFilter f data) (fun q hq => h q (List.mem_cons_of_mem _ hq))]
    simp [List.append_assoc]

/-! ## Lemmas about the readiness retrier -/

theorem retryGo_step_retryable (f : Nat → AttemptResult α) (fuel i : Nat) (sleeps : List Nat)
    (h : isRetryable (f i) = true) :
    retryGo f (fuel + 1) i sleeps = retryGo f fuel (i + 1) (sleeps ++ [2000 * (i + 1)]) := by
  cases hf : f i with
  | ok r =>
    cases r with
    | arr xs => rw [hf] at h; simp [isRetryable] at h
    | notArr => simp [retryGo, hf]
  | err s =>
    have hs : s = 202 := by
      by_contra hne
      rw [hf] at h; simp [isRetryable, hne] at h
    subst hs
    simp [retryGo, hf]

theorem retryGo_range_shift (m j : Nat) :
    (List.range (m + 1)).map (fun k => 2000 * (j + k + 1))
      = 2000 * (j + 1) :: (List.range m).map (fun k => 2000 * (j + 1 + k + 1)) := by
  rw [List.range_succ_eq_map, List.map_cons, List.map_map]
  congr 1
  congr 1
  funext k
  simp only [Function.comp_apply, Nat.succ_eq_add_one]
  omega

theorem retryGo_skip (f : Nat → AttemptResult α) :
    ∀ (m fuel i : Nat) (sleeps : List Nat), m ≤ fuel →
      (∀ k, k < m → isRetryable (f (i + k)) = true) →
      retryGo f fuel i sleeps
        = retryGo f (fuel - m) (i + m)
            (sleeps ++ (List.range m).map (fun k => 2000 * (i + k + 1))) := by
  intro m
  induction m with
  | zero => intro fuel i sleeps _ _; simp
  | succ m ih =>
    intro fuel i sleeps hle hret
    obtain ⟨fuel1, rfl⟩ : ∃ fuel1, fuel = fuel1 + 1 := ⟨fuel - 1, by omega⟩
    have h0 : isRetryable (f i) = true := by
      have h1 := hret 0 (Nat.succ_pos m)
      simpa using h1
    rw [retryGo_step_retryable f fuel1 i sleeps h0,
        ih fuel1 (i + 1) (sleeps ++ [2000 * (i + 1)]) (by omega)
          (fun k hk => by
            have h2 := hret (k + 1) (by omega)
            have e : i + (k + 1) = i + 1 + k := by omega
            rwa [e] at h2)]
    have e1 : fuel1 + 1 - (m + 1) = fuel1 - m := by omega
    have e2 : i + (m + 1) = i + 1 + m := by omega
    rw [e1, e2, retryGo_range_shift m i, List.append_assoc]
    rfl

theorem retryGo_sleeps_pattern (f : Nat → AttemptResult α) :
    ∀ (fuel i : Nat),
      ∃ n, (retryGo f fuel i ((List.range i).map (fun j => 2000 * (j + 1)))).sleeps
        = (List.range n).map (fun j => 2000 * (j + 1)) := by
  intro fuel
  induction fuel with
  | zero => intro i; exact ⟨i, rfl⟩
  | succ fuel ih =>
    intro i
    cases hf : f i with
    | ok r =>
      cases r with
      | arr xs => exact ⟨i, by simp [retryGo, hf]⟩
      | notArr =>
        obtain ⟨n, hn⟩ := ih (i + 1)
        rw [List.range_succ, List.map_append] at hn
        exact ⟨n, by simpa [retryGo, hf] using hn⟩
    | err s =>
      by_cases hs : s = 202
      · subst hs
        obtain ⟨n, hn⟩ := ih (i + 1)
        rw [List.range_succ, List.map_append] at hn
        exact ⟨n, by simpa [retryGo, hf] using hn⟩
      · exact ⟨i, by simp [retryGo, hf, hs]⟩

theorem retryGo_fatal (f : Nat → AttemptResult α) (fuel i s : Nat) (sleeps : List Nat)
    (hf : f i = .err s) (hs : s ≠ 202) :
    retryGo f (fuel + 1) i sleeps
      = { result := .err s, attempts := i + 1, sleeps := sleeps } := by
  simp [retryGo, hf, hs]

/-! ## Claim theorems -/

/-- C1: with 10 PRs of which 4 are merged, the composed prMergeRate is the
string "40.00"; with an empty pull-request list (totalPRs = 0), the code
composes prMergeRate = "NaN" whatever the other inputs, because the 0/0
division is not guarded by the sentinel the spec requires. -/
theorem prMergeRate_forty_and_nan_on_empty :
    (processStats (.arr []) prsTen [] 0).prStats.prMergeRate = "40.00"
    ∧ ∀ (ca : CommitActivity) (deps : List Deployment) (now : Int),
        (processStats ca [] deps now).prStats.prMergeRate = "NaN" :=
  ⟨by decide, fun ca deps now => rfl⟩

/-- C2: the weekly aggregator keys every PR by the ISO date of the UTC
midnight of the most recent Sunday at or before its creation timestamp:
the week key is the ISO date of a day that is a Sunday, at most the day of
the timestamp and less than seven days before it; the bucket at any key
aggregates exactly the PRs whose creation week key equals it; a record
timestamped Wednesday 2024-06-12T14:30Z buckets into "2024-06-09", and a
record exactly at Sunday 2024-06-09T00:00:00Z buckets into its own date. -/
theorem weekly_bucketing_sunday :
    (∀ t : Int,
        weekKeyOfMs t = isoDateOfDays (weekStartDays (msToDays t))
        ∧ (weekStartDays (msToDays t) + 4) % 7 = 0
        ∧ weekStartDays (msToDays t) ≤ msToDays t
        ∧ msToDays t < weekStartDays (msToDays t) + 7)
    ∧ (∀ (prs : List PullRequest) (k : String),
        bucketGet (weeklyPRStats prs) k
          = (prs.filter (fun pr => weekKeyOfMs pr.createdAt == k)).foldl
              (fun s pr => applyPR s pr) zeroWeekStats)
    ∧ weekKeyOfMs 1718202600000 = "2024-06-09"
    ∧ weekKeyOfMs 1717891200000 = "2024-06-09" := by
  refine ⟨fun t => ⟨rfl, ?_, ?_, ?_⟩, fun prs k => ?_, by decide, by decide⟩
  · simp only [weekStartDays, weekdayOfDays]
    omega
  · simp only [weekStartDays, weekdayOfDays]
    omega
  · simp only [weekStartDays, weekdayOfDays]
    omega
  · exact bucketGet_weeklyPRStats_aux k prs []

/-- C3: refinement of the paginated fetcher: for every error-free page
sequence and optional filter it returns the concatenation, in page order,
of the filtered pages under the halting rule of the spec, and on the
concrete pages [[10, 20], []] with no filter it returns [10, 20]. -/
theorem fetcher_concatenates_filtered_pages :
    (∀ (α : Type) (pages : List (List α × Bool)) (f : Option (α → Bool)),
        getAllPaginatedData (pages.map (fun p => PageResult.ok p.1 p.2)) f = fetchAllSpec f pages)
    ∧ getAllPaginatedData [PageResult.ok [10, 20] true, PageResult.ok ([] : List Nat) false] none
        = [10, 20] :=
  ⟨fun _ pages f => fetch_eq_spec f pages, by decide⟩

/-- C4: the retrier sleeps 2000 * (i + 1) ms after the i-th not-ready
attempt (its sleep list is always an initial segment of that pattern); a
function that is not ready twice and then yields [1, 2, 3] returns it
after exactly 3 attempts; a function whose five attempts are all
retryable returns the empty array as a degraded success after the whole
budget of 5 attempts. -/
theorem retrier_backoff_and_degraded_default :
    (∀ f : Nat → AttemptResult Nat, ∃ n,
        (retryRequest f 5).sleeps = (List.range n).map (fun j => 2000 * (j + 1)))
    ∧ (∀ f : Nat → AttemptResult Nat,
        (∀ i, i < 5 → isRetryable (f i) = true) →
          retryRequest f 5
            = { result := .ok [], attempts := 5, sleeps := [2000, 4000, 6000, 8000, 10000] })
    ∧ retryRequest notReadyTwice 5
        = { result := .ok [1, 2, 3], attempts := 3, sleeps := [2000, 4000] } := by
  refine ⟨fun f => ?_, fun f h => ?_, by decide⟩
  · simpa [retryRequest] using retryGo_sleeps_pattern f 5 0
  · rw [retryRequest, retryGo_skip f 5 5 0 [] (Nat.le_refl 5)
        (fun k hk => by rw [Nat.zero_add]; exact h k hk)]
    rfl

/-- C4 witness: the never-ready function exhausts the budget and returns
the empty array with the full backoff pattern. -/
theorem retrier_backoff_and_degraded_default_witness :
    retryRequest neverReady 5
      = { result := .ok [], attempts := 5, sleeps := [2000, 4000, 6000, 8000, 10000] } :=
  retrier_backoff_and_degraded_default.2.1 neverReady (fun _ _ => rfl)

/-- C5 counterexample: the composer reads the ambient clock for the
recency window, so composing twice from identical raw inputs at two
different instants yields different reports: the PR created at epoch
millisecond 1 lies inside the one-month recency window of instant 0 but
outside that of a year-2286 instant. -/
theorem composer_clock_dependence_cex :
    processStats (.arr []) [{ createdAt := 1, mergedAt := none, labels := [] }] [] 0
      ≠ processStats (.arr []) [{ createdAt := 1, mergedAt := none, labels := [] }] []
          10000000000000 := by decide

/-- C5 amended: composing twice from identical raw inputs and the same
clock instant yields identical reports, and every derived field other
than the four recency fields is identical even across different clock
instants. -/
theorem composer_deterministic_same_clock :
    ∀ (ca : CommitActivity) (prs : List PullRequest) (deps : List Deployment) (now1 now2 : Int),
      (processStats ca prs deps now1).commitStats = (processStats ca prs deps now2).commitStats
      ∧ (processStats ca prs deps now1).prStats.totalPRs
          = (processStats ca prs deps now2).prStats.totalPRs
      ∧ (processStats ca prs deps now1).prStats.mergedPRs
          = (processStats ca prs deps now2).prStats.mergedPRs
      ∧ (processStats ca prs deps now1).prStats.averagePRsPerWeek
          = (processStats ca prs deps now2).prStats.averagePRsPerWeek
      ∧ (processStats ca prs deps now1).prStats.prMergeRate
          = (processStats ca prs deps now2).prStats.prMergeRate
      ∧ (processStats ca prs deps now1).prStats.weeklyMetrics
          = (processStats ca prs deps now2).prStats.weeklyMetrics
      ∧ (processStats ca prs deps now1).prStats.bugPRs
          = (processStats ca prs deps now2).prStats.bugPRs
      ∧ (processStats ca prs deps now1).deploymentStats.totalDeployments
          = (processStats ca prs deps now2).deploymentStats.totalDeployments
      ∧ (processStats ca prs deps now1).deploymentStats.averageDeploymentsPerWeek
          = (processStats ca prs deps now2).deploymentStats.averageDeploymentsPerWeek
      ∧ (now1 = now2 → processStats ca prs deps now1 = processStats ca prs deps now2) :=
  fun _ _ _ _ _ =>
    ⟨rfl, rfl, rfl, rfl, rfl, rfl, rfl, rfl, rfl, fun h => by rw [h]⟩

/-- C5 amended witness: the determinism conjunct applied at a concrete
input and equal clock instants. -/
theorem composer_deterministic_same_clock_witness :
    processStats (.arr []) [] [] 0 = processStats (.arr []) [] [] 0 :=
  (composer_deterministic_same_clock (.arr []) [] [] 0 0).2.2.2.2.2.2.2.2.2 rfl

/-- C6: when every page before the failing position is nonempty and
signals a next page, a failing page halts pagination and the fetcher
returns exactly the filtered records of the preceding pages, whatever
follows the failing page; the result is an ordinary list, so no error is
raised past that point. -/
theorem fetcher_error_partial_results :
    ∀ (α : Type) (pre : List (List α × Bool)) (rest : List (PageResult α))
      (f : Option (α → Bool)),
      (∀ p ∈ pre, p.1 ≠ [] ∧ p.2 = true) →
        getAllPaginatedData (pre.map (fun p => PageResult.ok p.1 p.2) ++ PageResult.err :: rest) f
          = (pre.map (fun p => applyFilter f p.1)).flatten := by
  intro α pre rest f h
  rw [getAllPaginatedData, fetchGo_err f pre rest [] h]
  rfl

/-- C6 witness: two good pages, then a failure, then an unvisited page;
the fetcher returns the records of the two good pages. -/
theorem fetcher_error_partial_results_witness :
    getAllPaginatedData [PageResult.ok [10, 20] true, PageResult.ok [30] true, PageResult.err,
        PageResult.ok [40] false] (none : Option (Nat → Bool)) = [10, 20, 30] :=
  (fetcher_error_partial_results Nat [([10, 20], true), ([30], true)]
      [PageResult.ok [40] false] none (by decide)).trans (by decide)

/-- C7: an attempt failure that is not the 202 not-ready signal propagates
immediately: with all earlier attempts retryable and attempt i throwing
status s different from 202, the retrier stops with error s after exactly
i + 1 attempts, regardless of the remaining budget. -/
theorem retrier_fatal_error_propagates :
    ∀ (f : Nat → AttemptResult Nat) (i s : Nat),
      i < 5 → (∀ k, k < i → isRetryable (f k) = true) → f i = .err s → s ≠ 202 →
        (retryRequest f 5).result = .err s ∧ (retryRequest f 5).attempts = i + 1 := by
  intro f i s hi hret hf hs
  have h1 := retryGo_skip f i 5 0 [] (by omega)
      (fun k hk => by rw [Nat.zero_add]; exact hret k hk)
  obtain ⟨fuel1, e⟩ : ∃ fuel1, 5 - i = fuel1 + 1 := ⟨4 - i, by omega⟩
  rw [e] at h1
  rw [retryGo_fatal f fuel1 (0 + i) s _ (by rw [Nat.zero_add]; exact hf) hs] at h1
  rw [retryRequest, h1]
  exact ⟨rfl, by simp⟩

/-- C7 witness: a first not-ready attempt followed by a thrown 500 stops
the retrier with error 500 after exactly two attempts. -/
theorem retrier_fatal_error_propagates_witness :
    (retryRequest failsWith500 5).result = .err 500
      ∧ (retryRequest failsWith500 5).attempts = 2 :=
  retrier_fatal_error_propagates failsWith500 1 500 (by decide)
    (fun k hk => by
      have e : k = 0 := by omega
      subst e; rfl)
    rfl (by decide)

/-- C8: totalCommitsLastYear is the sum of the commit totals over all
commit weeks, a non-array commit-activity input composes exactly as the
empty list does, averageCommitsPerWeek is that total divided by the
number of weeks rendered by toFixed(2), and the two-week example with
totals 5 and 7 yields 12 and "6.00". -/
theorem commit_totals_and_average :
    (∀ (ws : List CommitWeek) (prs : List PullRequest) (deps : List Deployment) (now : Int),
        (processStats (.arr ws) prs deps now).commitStats.totalCommitsLastYear
            = (ws.map CommitWeek.total).sum
        ∧ processStats .other prs deps now = processStats (.arr []) prs deps now
        ∧ (processStats (.arr ws) prs deps now).commitStats.averageCommitsPerWeek
            = jsToFixed2 (jsDiv (.num (Frac.ofInt ((ws.map CommitWeek.total).sum : Int)))
                (.num (Frac.ofInt (ws.length : Int)))))
    ∧ (processStats (.arr [{ week := 0, total := 5 }, { week := 604800, total := 7 }])
        [] [] 0).commitStats.totalCommitsLastYear = 12
    ∧ (processStats (.arr [{ week := 0, total := 5 }, { week := 604800, total := 7 }])
        [] [] 0).commitStats.averageCommitsPerWeek = "6.00" := by
  refine ⟨fun ws prs deps now => ⟨?_, rfl, ?_⟩, by decide, by decide⟩
  · have h1 : (processStats (.arr ws) prs deps now).commitStats.totalCommitsLastYear
        = ((ws.map toWeekCommit).foldl (fun sum w => sum + w.commits) 0) := rfl
    rw [h1, foldl_commits_inst]
    exact Nat.zero_add _
  · have h2 : (processStats (.arr ws) prs deps now).commitStats.averageCommitsPerWeek
        = jsToFixed2 (jsDiv
            (.num (Frac.ofInt
              (((ws.map toWeekCommit).foldl (fun sum w => sum + w.commits) 0 : Nat) : Int)))
            (.num (Frac.ofInt ((ws.map toWeekCommit).length : Int)))) := rfl
    rw [h2, foldl_commits_inst, List.length_map, Nat.zero_add]

/-- C9: the composed bug-PR weekly series is the very same series as the
general weekly series for every input, and in particular a week whose
only PR carries no bug label still appears in the bug series with
bugPRCount = 0. -/
theorem bug_weekly_series_is_general_series :
    (∀ (ca : CommitActivity) (prs : List PullRequest) (deps : List Deployment) (now : Int),
        (processStats ca prs deps now).prStats.bugPRs.weeklyMetrics
          = (processStats ca prs deps now).prStats.weeklyMetrics)
    ∧ (processStats (.arr []) [{ createdAt := 0, mergedAt := none, labels := [] }]
          [] 0).prStats.bugPRs.weeklyMetrics
        = [{ week := "1969-12-28", prCount := 1, mergedCount := 0,
             averageMergeTime := .zero, bugPRCount := 0, mergedBugPRCount := 0 }] :=
  ⟨fun _ _ _ _ => rfl, by decide⟩

/-- C10: in every composed report the merged PR count is at most the
total, the merged bug count at most the bug total, the bug total at most
the PR total, the recent PR count at most the PR total, and the recent
deployment count at most the deployment total. -/
theorem report_count_inequalities :
    ∀ (ca : CommitActivity) (prs : List PullRequest) (deps : List Deployment) (now : Int),
      (processStats ca prs deps now).prStats.mergedPRs
          ≤ (processStats ca prs deps now).prStats.totalPRs
      ∧ (processStats ca prs deps now).prStats.bugPRs.merged
          ≤ (processStats ca prs deps now).prStats.bugPRs.total
      ∧ (processStats ca prs deps now).prStats.bugPRs.total
          ≤ (processStats ca prs deps now).prStats.totalPRs
      ∧ (processStats ca prs deps now).prStats.recentPRCount
          ≤ (processStats ca prs deps now).prStats.totalPRs
      ∧ (processStats ca prs deps now).deploymentStats.recentDeploymentCount
          ≤ (processStats ca prs deps now).deploymentStats.totalDeployments := by
  intro ca prs deps now
  refine ⟨?_, ?_, ?_, ?_, ?_⟩
  · rw [processStats_mergedPRs, processStats_totalPRs]
    exact List.length_filter_le _ _
  · rw [processStats_bugMerged, processStats_bugTotal]
    exact filter_length_mono _ _
      (fun pr h2 => by simp only [Bool.and_eq_true] at h2; exact h2.2) prs
  · rw [processStats_bugTotal, processStats_totalPRs]
    exact List.length_filter_le _ _
  · rw [processStats_recentPRCount, processStats_totalPRs]
    exact List.length_filter_le _ _
  · rw [processStats_recentDeployments, processStats_totalDeployments]
    exact List.length_filter_le _ _

end DevMetric
